import Mathlib

/-!
Shallow embedding of the Berry / C foreign-call marshaling layer of
`src/lib/libesp32/berry_mapping/src/be_class_wrapper.c`.

The interpreter primitives (`be_isint`, `be_getmember`, `be_call`, ...) are the
spec's "external collaborators"; they are modelled by an explicit value type
`BValue` and an oracle environment `Env` for the operations whose results live
outside this file (string addresses, the callback generator, instantiation of a
class found by name).  On the target platform every machine word, pointer and
Berry integer is 32 bits wide; the explicit `int32_t` casts of the C source are
modelled by `toInt32`.
-/

namespace BeClassWrapper

/-- Dynamic Berry values, covering the value kinds the wrapper code inspects:
integers, booleans, strings, opaque pointers (`comptr`), `nil`, closures,
instances (with their class name and member map), modules and class values. -/
inductive BValue where
  | nil
  | int (i : Int)
  | bool (b : Bool)
  | str (s : String)
  | comptr (p : Int)
  | closure (id : Nat)
  | inst (cname : String) (members : List (String × BValue))
  | bmodule (members : List (String × BValue))
  | cls (cname : String)

/-- Errors raised by `be_raise` / `be_raisef` in `be_class_wrapper.c`.
Each constructor corresponds to one raise site; the fields carry the
format-string arguments of the corresponding message. -/
inductive BerryError where
  /-- type_error, message: Can't find callback generator: %s -/
  | cant_find_callback_generator (gen : String)
  /-- type_error, message: Closure expected for callback type -/
  | closure_expected
  /-- type_error, message: Unexpected argument type %c, expected %s -/
  | unexpected_arg_type (provided : Char) (expected : String)
  /-- type_error, message: Unexpected class type %s, expected %s -/
  | unexpected_class_type (provided : String) (expected : String)
  /-- value_error, message: Unable to find class %s (%d) -/
  | unable_to_find_class (cname : String) (len : Nat)
  /-- value_error, message: Unexpected instance type %s, expected %s -/
  | unexpected_instance_type (provided : String) (expected : String)
  /-- value_error, message: Unexpected %s (the typename of the value) -/
  | unexpected_value (tname : String)
  /-- value_error, message: Missing arguments, remaining type %s -/
  | missing_arguments (remaining : String)
  /-- attribute_error, message: Missing member %s in ctor -/
  | missing_member (mname : String)
  /-- internal_error, message: Unsupported return type -/
  | unsupported_return_type
deriving DecidableEq

/-- The Berry error class (first argument of `be_raise` / `be_raisef`). -/
def BerryError.kind : BerryError → String
  | .cant_find_callback_generator _ => "type_error"
  | .closure_expected => "type_error"
  | .unexpected_arg_type _ _ => "type_error"
  | .unexpected_class_type _ _ => "type_error"
  | .unable_to_find_class _ _ => "value_error"
  | .unexpected_instance_type _ _ => "value_error"
  | .unexpected_value _ => "value_error"
  | .missing_arguments _ => "value_error"
  | .missing_member _ => "attribute_error"
  | .unsupported_return_type => "internal_error"

/-- Result of `be_find_global_or_module_member`, expressed by the number of
values it leaves on the Berry stack: 0 = not found, 1 = a single value,
2 = a member together with its receiver (member below, receiver on top). -/
inductive ResolveResult where
  | notFound
  | found (v : BValue)
  | foundMethod (member : BValue) (receiver : BValue)

/-- Truncation of a mathematical integer to a signed 32-bit word; models the
`int32_t` casts of the source (all words are 32 bits on the target). -/
def toInt32 (n : Int) : Int :=
  (n + 2147483648) % 4294967296 - 2147483648

/-- `s[0]` as the C code reads it: the first character of the string, or the
NUL character when the string is empty. -/
def chr0 (s : String) : Char :=
  s.data.headD (Char.ofNat 0)

/-- Member lookup in an instance/module member list (`be_getmember` on the
modelled member map). -/
def getmem : List (String × BValue) → String → Option BValue
  | [], _ => none
  | (k, v) :: rest, n => if k == n then some v else getmem rest n

/-- Member update in an instance/module member list.  Like Berry's
`be_setmember`, it only overwrites an existing member; an absent key leaves
the list unchanged (the caller checks existence separately). -/
def setmem : List (String × BValue) → String → BValue → List (String × BValue)
  | [], _, _ => []
  | (k, v) :: rest, n, x => if k == n then (k, x) :: rest else (k, v) :: setmem rest n x

/-- `be_isinstance`. -/
def BValue.isinstance : BValue → Bool
  | .inst _ _ => true
  | _ => false

/-- `be_getmember`: reads a member of an instance or module, `none` when the
member is absent (the C call then pushes `nil` and returns false). -/
def BValue.getmember : BValue → String → Option BValue
  | .inst _ mems, n => getmem mems n
  | .bmodule mems, n => getmem mems n
  | _, _ => none

/-- `be_setmember`: writes an existing member of an instance or module,
`none` (= C `bfalse`) when the member does not exist. -/
def BValue.setmember : BValue → String → BValue → Option BValue
  | .inst c mems, n, x => if (getmem mems n).isSome then some (.inst c (setmem mems n x)) else none
  | .bmodule mems, n, x => if (getmem mems n).isSome then some (.bmodule (setmem mems n x)) else none
  | _, _, _ => none

/-- `be_typename`. -/
def typename : BValue → String
  | .nil => "nil"
  | .int _ => "int"
  | .bool _ => "bool"
  | .str _ => "string"
  | .comptr _ => "comptr"
  | .closure _ => "function"
  | .inst _ _ => "instance"
  | .bmodule _ => "module"
  | .cls _ => "class"

/-- The oracle environment: the interpreter facilities `be_class_wrapper.c`
consumes but does not implement (spec section 6, "external interfaces"). -/
structure Env where
  /-- `be_getglobal`: the global scope. -/
  globals : String → Option BValue
  /-- the class-derivation relation used by `be_isderived`
  (`subclass c t` = class `c` is `t` or a subclass of `t`). -/
  subclass : String → String → Bool
  /-- `be_tostring`: the machine address of a string's character data. -/
  strAddr : String → Int
  /-- the result of calling the `_buffer` accessor on a bytes-derived
  instance (an opaque buffer pointer). -/
  bufferAddr : BValue → Int
  /-- the opaque pointer returned by a call to the callback generator:
  arguments are the resolved generator, the closure id, the value at Berry
  stack slot 1 and the descriptor text after the leading caret. -/
  genCb : ResolveResult → Nat → BValue → String → Int
  /-- `be_pushstring` applied to a `const char *` returned by the C
  function: the Berry string living at the given address. -/
  strOfAddr : Int → String
  /-- instantiation of a class-name return type: calling the resolved value
  with the result pointer and the sentinel `-1` (lines 398-404). -/
  construct : ResolveResult → Int → BValue

/-- `be_isderived env v t`: is the value `v` (at some stack index) an
instance or class derived from the class value `t` on top of the stack? -/
def be_isderived (env : Env) : BValue → BValue → Bool
  | .inst c _, .cls t => env.subclass c t
  | .cls c, .cls t => env.subclass c t
  | _, _ => false

/-- The simple-type acceptance check of lines 177-188: a simple value of
provided type `pt` with 32-bit word `w` is accepted when the tag is the
wildcard, or matches the provided letter, or the word is zero and the tag is
not a single character (null is always acceptable for an instance tag). -/
def check_simple (pt : Char) (w : Int) (at_ : String) : Except BerryError Int :=
  if (chr0 at_ == '.') || (chr0 at_ == pt) || (w == 0 && at_.length != 1) then
    .ok w
  else
    .error (.unexpected_arg_type pt at_)

/-- One step of `strtok_r(_, ".", _)`: skip leading dots; `none` when nothing
remains, otherwise the next token and the unconsumed tail. -/
def strtok1 (cs : List Char) : Option (List Char × List Char) :=
  let t := cs.dropWhile (· == '.')
  if t.isEmpty then none
  else some (t.takeWhile (· != '.'), t.dropWhile (· != '.'))

/-- `be_find_global_or_module_member` (lines 55-92): resolve a plain or dotted
name against the global scope.  With a dot, the prefix is looked up as a
global and the suffix as a member on it; when the global container is an
instance the member is reported together with its receiver (return value 2),
otherwise the member alone (return value 1).  A `NULL` name or any failed
lookup yields `notFound` (return value 0).  (The C behaviour on a name that
contains no token at all would pass `NULL` to `be_getglobal`; that undefined
corner is mapped to `notFound`.) -/
def be_find_global_or_module_member (env : Env) (name : Option String) : ResolveResult :=
  match name with
  | none => .notFound
  | some s =>
    match strtok1 s.data with
    | none => .notFound
    | some (pfx, rest1) =>
      match strtok1 rest1 with
      | some (sfx, _) =>
        match env.globals (String.mk pfx) with
        | none => .notFound
        | some g =>
          match g.getmember (String.mk sfx) with
          | none => .notFound
          | some m => if g.isinstance then .foundMethod m g else .found m
      | none =>
        match env.globals (String.mk pfx) with
        | some g => .found g
        | none => .notFound

/-- The value the instance branch of `be_convert_single_elt` recurses on:
member `_p` if present, else member `.p` if present, else the `nil` pushed by
the failed `be_getmember` (lines 205-209). -/
def memberOrNil (mems : List (String × BValue)) : BValue :=
  match getmem mems "_p" with
  | some m => m
  | none =>
    match getmem mems ".p" with
    | some m => m
    | none => .nil

/-- The callback block of `be_convert_single_elt` (lines 146-167), reached
when the tag has a leading caret: the value must be a closure; the generator
named `gen_cb` is resolved and called with the closure, the value at stack
slot 1 and the tag text after the caret, yielding a trampoline address. -/
def convert_cb (env : Env) (slot1 : BValue) (v : BValue) (at_ : String)
    (gen_cb : Option String) : Except BerryError Int :=
  match v with
  | .closure cid =>
    match be_find_global_or_module_member env gen_cb with
    | .notFound => .error (.cant_find_callback_generator (gen_cb.getD ""))
    | r => .ok (toInt32 (env.genCb r cid slot1 (at_.drop 1)))
  | _ => .error .closure_expected

/-- The non-callback part of `be_convert_single_elt` (lines 169-236): the
simple kinds (int / bool / string / comptr / nil, tested in that order by
lines 170-174) yield a provided-type letter and a 32-bit word checked by
`check_simple`; instances are first tested for bytes ancestry, otherwise
their `_p`/`.p` member is converted recursively — in the source by
`be_convert_single_elt(vm, -1, NULL, NULL)`, whose `NULL` tag is replaced by
the wildcard and whose `NULL` generator makes the callback test vacuous, so
the recursion lands back in this function with tag `"."` — and then the named
class of the tag is checked through the resolver.  Every other kind raises
the unexpected-value error of line 233. -/
def convert_plain (env : Env) (slot1 : BValue) : BValue → String → Except BerryError Int
  | .int i, at_ => check_simple 'i' (toInt32 i) at_
  | .bool b, at_ => check_simple 'b' (if b then 1 else 0) at_
  | .str s, at_ => check_simple 's' (toInt32 (env.strAddr s)) at_
  | .comptr p, at_ => check_simple 'c' (toInt32 p) at_
  | .nil, at_ => check_simple 'c' 0 at_
  | .inst cname mems, at_ =>
    if be_isderived env (.inst cname mems) (.cls "bytes") then
      .ok (toInt32 (env.bufferAddr (.inst cname mems)))
    else
      match convert_plain env slot1 (memberOrNil mems) "." with
      | .error e => .error e
      | .ok w0 =>
        let w := toInt32 w0
        if at_.length > 1 then
          match be_find_global_or_module_member env (some at_) with
          | .notFound => .error (.unable_to_find_class at_ at_.length)
          | .found c =>
            if be_isderived env (.cls cname) c then .ok w
            else .error (.unexpected_class_type cname at_)
          | .foundMethod m recv =>
            if be_isderived env m recv then .ok w
            else .error (.unexpected_class_type cname at_)
        else if chr0 at_ != '.' then
          .error (.unexpected_instance_type cname at_)
        else
          .ok w
  | .closure cid, _ => .error (.unexpected_value (typename (.closure cid)))
  | .bmodule mems, _ => .error (.unexpected_value (typename (.bmodule mems)))
  | .cls cname, _ => .error (.unexpected_value (typename (.cls cname)))
termination_by v _ => sizeOf v
decreasing_by
  have hget : ∀ (l : List (String × BValue)) (n : String) (m : BValue),
      getmem l n = some m → sizeOf m < sizeOf l := by
    intro l
    induction l with
    | nil => intro n m h; simp [getmem] at h
    | cons hd tl ih =>
      intro n m h
      obtain ⟨k, v'⟩ := hd
      simp only [getmem] at h
      by_cases hk : (k == n) = true
      · rw [if_pos hk] at h
        cases h
        simp only [List.cons.sizeOf_spec, Prod.mk.sizeOf_spec]
        omega
      · rw [if_neg hk] at h
        have := ih n m h
        simp only [List.cons.sizeOf_spec, Prod.mk.sizeOf_spec]
        omega
  have hmem : sizeOf (memberOrNil mems) ≤ sizeOf mems := by
    have hnil : (1 : Nat) ≤ sizeOf mems := by
      cases mems with
      | nil => simp
      | cons hd tl => simp only [List.cons.sizeOf_spec]; omega
    unfold memberOrNil
    cases h1 : getmem mems "_p" with
    | some m => exact le_of_lt (hget mems "_p" m h1)
    | none =>
      cases h2 : getmem mems ".p" with
      | some m => exact le_of_lt (hget mems ".p" m h2)
      | none => simpa using hnil
  simp only [BValue.inst.sizeOf_spec]
  omega

/-- `be_convert_single_elt` (lines 135-237): convert one dynamic value against
a type tag into a 32-bit word.  `arg_type = none` models a `NULL` tag and is
replaced by the wildcard `"."`.  `slot1` is the value at Berry stack slot 1
(passed to the callback generator).  Callback tags (leading caret, length at
least two) are handled first; everything else goes through `convert_plain`. -/
def be_convert_single_elt (env : Env) (slot1 : BValue) (v : BValue)
    (arg_type0 : Option String) (gen_cb : Option String) : Except BerryError Int :=
  let at_ := arg_type0.getD "."
  if at_.length > 1 && (chr0 at_ == '^') then
    convert_cb env slot1 v at_ gen_cb
  else
    convert_plain env slot1 v at_

/-- The number of characters the token-scanning loop of `be_check_arg_type`
(line 288) copies out of the rest of the descriptor: it stops at a closing
parenthesis, a caret, the end of the string, or when the 32-byte token buffer
is about to fill (`limit` = remaining buffer capacity). -/
def scanLen : List Char → Nat → Nat
  | [], _ => 0
  | _ :: _, 0 => 0
  | c :: rest, Nat.succ n =>
    if c == ')' || c == '^' then 0 else scanLen rest n + 1

/-- The per-argument loop of `be_check_arg_type` (lines 263-306).  `check0`
is `arg_type_check` (descriptor present at entry, computed once); the cursor
is the not-yet-consumed part of the descriptor, `none` once the code has set
`arg_type = NULL`.  Each dynamic argument consumes one descriptor token;
`-` consumes the argument without producing a word; after an exhausted
descriptor further arguments are converted against the cleared (empty) token
buffer.  Tokens open with a parenthesis or caret and are scanned up to the
closing parenthesis / caret / NUL with the 32-byte buffer cap; reaching the
NUL invalidates the descriptor for the rest of the call. -/
def checkArgsGo (env : Env) (slot1 : BValue) (check0 : Bool) :
    List BValue → Option (List Char) → Except BerryError (List Int)
  | [], none => .ok []
  | [], some cs =>
    if cs.isEmpty then .ok []
    else .error (.missing_arguments (String.mk cs))
  | v :: vs, none =>
    match be_convert_single_elt env slot1 v (if check0 then some "" else none) (some "_lvgl.gen_cb") with
    | .error e => .error e
    | .ok w =>
      match checkArgsGo env slot1 check0 vs none with
      | .error e => .error e
      | .ok ws => .ok (w :: ws)
  | v :: vs, some [] =>
    match be_convert_single_elt env slot1 v (if check0 then some "" else none) (some "_lvgl.gen_cb") with
    | .error e => .error e
    | .ok w =>
      match checkArgsGo env slot1 check0 vs none with
      | .error e => .error e
      | .ok ws => .ok (w :: ws)
  | v :: vs, some (c :: rest) =>
    if c == '-' then
      checkArgsGo env slot1 check0 vs (some rest)
    else if c == '.' || ('a' ≤ c && c ≤ 'z') then
      match be_convert_single_elt env slot1 v (if check0 then some (String.mk [c]) else none) (some "_lvgl.gen_cb") with
      | .error e => .error e
      | .ok w =>
        match checkArgsGo env slot1 check0 vs (some rest) with
        | .error e => .error e
        | .ok ws => .ok (w :: ws)
    else if c == '(' || c == '^' then
      let pfxLen : Nat := if c == '^' then 1 else 0
      let n := scanLen rest (31 - pfxLen)
      let tok : String :=
        if c == '^' then String.mk ('^' :: rest.take n) else String.mk (rest.take n)
      let cur : Option (List Char) :=
        if (rest.get? n).isNone then none else some (rest.drop (n + 1))
      match be_convert_single_elt env slot1 v (if check0 then some tok else none) (some "_lvgl.gen_cb") with
      | .error e => .error e
      | .ok w =>
        match checkArgsGo env slot1 check0 vs cur with
        | .error e => .error e
        | .ok ws => .ok (w :: ws)
    else
      match be_convert_single_elt env slot1 v (if check0 then some "" else none) (some "_lvgl.gen_cb") with
      | .error e => .error e
      | .ok w =>
        match checkArgsGo env slot1 check0 vs (some (c :: rest)) with
        | .error e => .error e
        | .ok ws => .ok (w :: ws)

/-- `be_check_arg_type` (lines 257-312): convert the dynamic arguments
against the descriptor, producing the populated word list; after the loop,
raise the missing-arguments error when the (still valid) descriptor has
unconsumed tokens left. -/
def be_check_arg_type (env : Env) (slot1 : BValue) (args : List BValue)
    (arg_type : Option String) : Except BerryError (List Int) :=
  checkArgsGo env slot1 arg_type.isSome args (arg_type.map String.data)

/-- `be_set_ctor_ptr` (lines 329-340): store a pointer into the named member
of the instance at stack slot 1.  A `NULL` name does nothing; a leading plus
is skipped; an empty remaining name does nothing; a missing member raises
`attribute_error`. -/
def be_set_ctor_ptr (slot1 : BValue) (ptr : Int) (name : Option String) :
    Except BerryError BValue :=
  match name with
  | none => .ok slot1
  | some n0 =>
    let n := if chr0 n0 == '+' then n0.drop 1 else n0
    if n.length == 0 then .ok slot1
    else
      match slot1.setmember n (.comptr ptr) with
      | some s1 => .ok s1
      | none => .error (.missing_member n)

/-- The observable outcome of one `be_call_c_func` dispatch: the value
returned to Berry (or the raised error), the state of stack slot 1 after the
call (the ctor-pointer store mutates it), and how many times the native
function pointer was invoked. -/
structure CallState where
  result : Except BerryError BValue
  slot1 : BValue
  nativeCalls : Nat

/-- Conversion of the native result word per the return-type tag
(lines 382-405).  Assumes the native function has been invoked (hence
`nativeCalls = 1` throughout). -/
def convert_ret (env : Env) (slot1 : BValue) (return_type : Option String)
    (ret : Int) : CallState :=
  match return_type with
  | none => ⟨.ok .nil, slot1, 1⟩
  | some s =>
    if s.length == 0 then ⟨.ok .nil, slot1, 1⟩
    else if chr0 s == '+' then
      match be_set_ctor_ptr slot1 ret (some s) with
      | .ok s1 => ⟨.ok .nil, s1, 1⟩
      | .error e => ⟨.error e, slot1, 1⟩
    else if s.length == 1 then
      if chr0 s == '.' || chr0 s == 'i' then ⟨.ok (.int ret), slot1, 1⟩
      else if chr0 s == 'b' then ⟨.ok (.bool (ret % 256 != 0)), slot1, 1⟩
      else if chr0 s == 's' then ⟨.ok (.str (env.strOfAddr ret)), slot1, 1⟩
      else if chr0 s == 'c' then ⟨.ok (.int ret), slot1, 1⟩
      else ⟨.error .unsupported_return_type, slot1, 1⟩
    else
      ⟨.ok (env.construct (be_find_global_or_module_member env (some s)) ret), slot1, 1⟩

/-- The conversion-then-invocation path of `be_call_c_func` (lines 377-405):
check/convert the argument window, invoke the native function on the 8
zero-padded words, convert the result.  A conversion failure aborts before
the native call. -/
def be_call_main (env : Env) (f : List Int → Int) (return_type : Option String)
    (arg_type : Option String) (slot1 : BValue) (args : List BValue) : CallState :=
  match be_check_arg_type env slot1 args arg_type with
  | .error e => ⟨.error e, slot1, 0⟩
  | .ok ws =>
    let p := (ws ++ List.replicate 8 0).take 8
    convert_ret env slot1 return_type (toInt32 (f p))

/-- Is the return tag in constructor-pointer-store mode (leading plus)? -/
def ctorModeB (return_type : Option String) : Bool :=
  match return_type with
  | some s => chr0 s == '+'
  | none => false

/-- `argc > 1 && be_iscomptr(vm, 2)`: the second incoming dynamic argument
when it is an opaque pointer. -/
def sndComptr (stack : List BValue) : Option Int :=
  match stack.get? 1 with
  | some (.comptr p) => some p
  | _ => none

/-- The dynamic-argument window actually converted by `be_call_c_func`: in
constructor mode without an adopted pointer the first argument (the instance
itself) is dropped. -/
def effArgs (return_type : Option String) (stack : List BValue) : List BValue :=
  if ctorModeB return_type then
    match sndComptr stack with
    | some _ => stack
    | none => stack.drop 1
  else stack

/-- `be_call_c_func` (lines 354-406).  `stack` holds the dynamic arguments at
Berry stack slots 1..argc.  With a leading-plus return tag and an opaque
pointer as second argument, that pointer is adopted: stored through
`be_set_ctor_ptr` and the call returns nil at once, never invoking the native
function.  Otherwise constructor mode drops the first argument, the window is
converted, the native function called on 8 zero-padded words, and the result
converted per the return tag. -/
def be_call_c_func (env : Env) (f : List Int → Int) (return_type : Option String)
    (arg_type : Option String) (stack : List BValue) : CallState :=
  let slot1 := stack.headD .nil
  if ctorModeB return_type then
    match sndComptr stack with
    | some p =>
      match be_set_ctor_ptr slot1 p return_type with
      | .ok s1 => ⟨.ok .nil, s1, 0⟩
      | .error e => ⟨.error e, slot1, 0⟩
    | none => be_call_main env f return_type arg_type slot1 (stack.drop 1)
  else
    be_call_main env f return_type arg_type slot1 stack

/-- A closed oracle environment for concrete evaluations: empty global scope,
no derivation relations, strings at address 1000. -/
def env0 : Env where
  globals := fun _ => none
  subclass := fun _ _ => false
  strAddr := fun _ => 1000
  bufferAddr := fun _ => 0
  genCb := fun _ _ _ _ => 0
  strOfAddr := fun _ => ""
  construct := fun _ _ => BValue.nil

/-- An environment whose global `m` is a module holding an instance member
`x` (for exercising the dotted-name resolver). -/
def env7 : Env :=
  { env0 with
    globals := fun n => if n = "m" then some (.bmodule [("x", .inst "C" [])]) else none }

/-! ## Helper lemmas -/

theorem getmem_setmem {l : List (String × BValue)} {k : String} {old : BValue}
    (x : BValue) (h : getmem l k = some old) : getmem (setmem l k x) k = some x := by
  induction l with
  | nil => simp [getmem] at h
  | cons hd tl ih =>
    obtain ⟨k', v'⟩ := hd
    by_cases hk : (k' == k) = true
    · simp [getmem, setmem, hk]
    · simp only [getmem, if_neg hk] at h
      simp only [setmem, if_neg hk, getmem]
      exact ih h

theorem toInt32_eq_self {n : Int} (h1 : -2147483648 ≤ n) (h2 : n < 2147483648) :
    toInt32 n = n := by
  unfold toInt32
  have h3 : (0 : Int) ≤ n + 2147483648 := by omega
  have h4 : n + 2147483648 < 4294967296 := by omega
  rw [Int.emod_eq_of_lt h3 h4]
  omega

/-- Converting `nil` against any tag of length at least 2 not opening with a
caret succeeds with word 0 (the null-for-instance acceptance of line 181). -/
theorem convert_nil_ok (env : Env) (s1 : BValue) (g : Option String) (t : String)
    (hlen : 2 ≤ t.length) (hc : chr0 t ≠ '^') :
    be_convert_single_elt env s1 .nil (some t) g = .ok 0 := by
  have h1 : (chr0 t == '^') = false := by simp [hc]
  have h2 : (t.length != 1) = true := by simp; omega
  simp [be_convert_single_elt, convert_plain, check_simple, h1, h2]

/-- Converting a null opaque pointer against any tag of length at least 2 not
opening with a caret succeeds with word 0. -/
theorem convert_comptr0_ok (env : Env) (s1 : BValue) (g : Option String) (t : String)
    (hlen : 2 ≤ t.length) (hc : chr0 t ≠ '^') :
    be_convert_single_elt env s1 (.comptr 0) (some t) g = .ok 0 := by
  have h1 : (chr0 t == '^') = false := by simp [hc]
  have h2 : (t.length != 1) = true := by simp; omega
  simp [be_convert_single_elt, convert_plain, check_simple, toInt32, h1, h2]

/-- Converting an integer against the `i` tag always succeeds with the 32-bit
truncation of its value. -/
theorem convert_int_i (env : Env) (s1 : BValue) (g : Option String) (i : Int) :
    be_convert_single_elt env s1 (.int i) (some (String.mk ['i'])) g = .ok (toInt32 i) := by
  simp +decide [be_convert_single_elt, convert_plain, check_simple, chr0]

/-! ## Claim C1 -/

/-- C1: for every dispatch, a conversion failure of the argument window aborts
the whole call with that error, leaves stack slot 1 untouched, and the native
function pointer is never invoked (`nativeCalls = 0`): conversion strictly
precedes invocation.  The hypothesis excludes the adopt-pointer special case,
which performs no conversion (and no native call either). -/
theorem c1_conversion_failure_prevents_native_call (env : Env) (f : List Int → Int)
    (rt at_ : Option String) (stack : List BValue) (e : BerryError)
    (hns : ctorModeB rt = false ∨ sndComptr stack = none)
    (hconv : be_check_arg_type env (stack.headD .nil) (effArgs rt stack) at_ = .error e) :
    be_call_c_func env f rt at_ stack = ⟨.error e, stack.headD .nil, 0⟩ := by
  by_cases hcm : ctorModeB rt = true
  · have hsnd : sndComptr stack = none := by
      rcases hns with h | h
      · rw [h] at hcm; cases hcm
      · exact h
    simp only [effArgs, hcm, if_true] at hconv
    rw [hsnd] at hconv
    simp only [be_call_c_func, hcm, if_true, hsnd]
    simp only [be_call_main, hconv]
  · have hcm' : ctorModeB rt = false := by
      cases h : ctorModeB rt
      · rfl
      · exact absurd h hcm
    simp only [effArgs, hcm', Bool.false_eq_true, if_false] at hconv
    simp only [be_call_c_func, hcm', Bool.false_eq_true, if_false]
    simp only [be_call_main, hconv]

/-- Witness for C1: dispatching descriptor `i` on a single string argument
fails the conversion and the native call counter stays at 0. -/
theorem c1_witness :
    be_call_c_func env0 (fun _ => 0) none (some "i") [.str "hello"]
      = ⟨.error (.unexpected_arg_type 's' "i"), .str "hello", 0⟩ :=
  c1_conversion_failure_prevents_native_call env0 (fun _ => 0) none (some "i")
    [.str "hello"] (.unexpected_arg_type 's' "i") (Or.inl rfl)
    (by simp +decide [be_check_arg_type, effArgs, ctorModeB, checkArgsGo,
          be_convert_single_elt, convert_plain, check_simple, chr0, env0, toInt32])

/-! ## Claim C3 -/

/-- C3: for every NamedClass (multi-character, non-callback) tag, converting a
`nil` value or a null opaque pointer succeeds with word 0 in every
environment, i.e. regardless of whether the named class exists or matches. -/
theorem c3_namedclass_accepts_nil_and_null (env : Env) (s1 : BValue)
    (g : Option String) (t : String) (hlen : 2 ≤ t.length) (hc : chr0 t ≠ '^') :
    be_convert_single_elt env s1 .nil (some t) g = .ok 0 ∧
    be_convert_single_elt env s1 (.comptr 0) (some t) g = .ok 0 :=
  ⟨convert_nil_ok env s1 g t hlen hc, convert_comptr0_ok env s1 g t hlen hc⟩

/-- Witness for C3 at the tag `lv_obj` in the empty environment (where the
class `lv_obj` does not even exist). -/
theorem c3_witness :
    be_convert_single_elt env0 .nil .nil (some "lv_obj") none = .ok 0 ∧
    be_convert_single_elt env0 .nil (.comptr 0) (some "lv_obj") none = .ok 0 :=
  c3_namedclass_accepts_nil_and_null env0 .nil none "lv_obj" (by decide) (by decide)

/-! ## Claim C4 -/

/-- C4 counterexample: in the empty environment the class named by the tag
`lv_obj` cannot be resolved, yet conversion of the supplied value `nil`
succeeds with word 0 — it does not fail with the class-not-found error, so
the claim fails for nil (and for every zero-word) values. -/
theorem c4_counterexample :
    be_find_global_or_module_member env0 (some "lv_obj") = .notFound ∧
    be_convert_single_elt env0 .nil .nil (some "lv_obj") none = .ok 0 := by
  constructor
  · rfl
  · simp +decide [be_convert_single_elt, convert_plain, check_simple, chr0]

/-- C4 amended: for a NamedClass tag that the resolver cannot find, conversion
of any non-bytes-derived *instance* (whose pointer member itself converts)
fails with the class-not-found error, even though the instance's class might
have matched; zero-word simple values (nil, null pointers) are accepted
before the resolver is ever consulted. -/
theorem c4_unresolvable_class_fails_for_instances (env : Env) (s1 : BValue)
    (g : Option String) (t cname : String) (mems : List (String × BValue)) (w : Int)
    (hlen : 2 ≤ t.length) (hc : chr0 t ≠ '^')
    (hbytes : env.subclass cname "bytes" = false)
    (hres : be_find_global_or_module_member env (some t) = .notFound)
    (hmem : convert_plain env s1 (memberOrNil mems) "." = .ok w) :
    be_convert_single_elt env s1 (.inst cname mems) (some t) g
      = .error (.unable_to_find_class t t.length) := by
  have h1 : (chr0 t == '^') = false := by simp [hc]
  have h2 : 1 < t.length := by omega
  simp only [be_convert_single_elt, Option.getD_some, h1, Bool.and_false,
    Bool.false_eq_true, if_false]
  simp only [convert_plain, be_isderived, hbytes, Bool.false_eq_true, if_false, hmem]
  rw [if_pos h2, hres]

/-- Witness for C4: an instance of class `lv_obj` carrying a pointer member,
converted against the tag `lv_obj` in the empty environment, fails with the
class-not-found error even though its class name matches the tag. -/
theorem c4_witness :
    be_convert_single_elt env0 .nil (.inst "lv_obj" [("_p", .comptr 7)]) (some "lv_obj") none
      = .error (.unable_to_find_class "lv_obj" 6) :=
  c4_unresolvable_class_fails_for_instances env0 .nil none "lv_obj" "lv_obj"
    [("_p", .comptr 7)] 7 (by decide) (by decide) rfl rfl
    (by simp +decide [convert_plain, check_simple, chr0, memberOrNil, getmem, toInt32])

/-! ## Claim C8 -/

/-- C8 counterexample: an instance with no `_p` member, no `.p` member and no
bytes ancestry converts *successfully* (to word 0) under the wildcard tag —
the missing member reads as nil — instead of failing with the
unexpected-value-kind error the claim requires. -/
theorem c8_counterexample :
    env0.subclass "C" "bytes" = false ∧
    be_convert_single_elt env0 .nil (.inst "C" []) (some ".") none = .ok 0 := by
  constructor
  · rfl
  · simp +decide [be_convert_single_elt, convert_plain, check_simple, chr0,
      memberOrNil, getmem, be_isderived, env0]

/-- C8 amended: an instance with no `_p`/`.p` member and no byte-buffer
ancestry converts as if its pointer member were nil: the wildcard tag
succeeds with word 0, while a single-character non-wildcard tag fails with
the unexpected-instance-type error; the unexpected-value error of line 233 is
reserved for non-instance values of unhandled kinds. -/
theorem c8_bare_instance_converts_as_nil (env : Env) (s1 : BValue) (cname : String)
    (mems : List (String × BValue))
    (hbytes : env.subclass cname "bytes" = false)
    (hp : getmem mems "_p" = none) (hpp : getmem mems ".p" = none) :
    be_convert_single_elt env s1 (.inst cname mems) (some ".") none = .ok 0 ∧
    be_convert_single_elt env s1 (.inst cname mems) (some "i") none
      = .error (.unexpected_instance_type cname "i") := by
  have hm : memberOrNil mems = .nil := by simp [memberOrNil, hp, hpp]
  constructor
  · simp +decide [be_convert_single_elt, convert_plain, check_simple, chr0,
      be_isderived, hbytes, hm, toInt32]
  · simp +decide [be_convert_single_elt, convert_plain, check_simple, chr0,
      be_isderived, hbytes, hm, toInt32]

/-- Witness for C8 on a memberless instance of class `C`. -/
theorem c8_witness :
    be_convert_single_elt env0 .nil (.inst "C" []) (some ".") none = .ok 0 ∧
    be_convert_single_elt env0 .nil (.inst "C" []) (some "i") none
      = .error (.unexpected_instance_type "C" "i") :=
  c8_bare_instance_converts_as_nil env0 .nil "C" [] rfl rfl rfl

/-! ## Claim C2 -/

/-- C2 counterexample: return tag `+_p`, second argument an opaque pointer,
but the instance under construction has no member `_p`: the dispatcher does
not store the pointer and does not return with no value — it raises the
missing-member attribute error (it does, however, still perform no native
call). -/
theorem c2_counterexample :
    be_call_c_func env0 (fun _ => 99) (some "+_p") none [.inst "C" [], .comptr 5]
      = ⟨.error (.missing_member "_p"), .inst "C" [], 0⟩ := by
  rfl

/-- C2 amended: when the return tag begins with `+`, the second incoming
dynamic argument is an opaque pointer P, the tag remainder after `+` is
non-empty, and the slot-1 instance has a member of that name, the dispatcher
stores P into that member and returns immediately with no value and no
native invocation.  (With an absent member it raises the missing-member
attribute error instead, and with an empty remainder nothing is stored; in
all these branches the native function is still never invoked.) -/
theorem c2_adopt_pointer_stores_when_member_exists (env : Env) (f : List Int → Int)
    (at_ : Option String) (rt : String) (stack : List BValue) (p : Int)
    (cname : String) (mems : List (String × BValue)) (old : BValue)
    (hrt : chr0 rt = '+')
    (hrest : (rt.drop 1).length ≠ 0)
    (hsnd : sndComptr stack = some p)
    (hslot : stack.headD .nil = .inst cname mems)
    (hmem : getmem mems (rt.drop 1) = some old) :
    be_call_c_func env f (some rt) at_ stack
      = ⟨.ok .nil, .inst cname (setmem mems (rt.drop 1) (.comptr p)), 0⟩ := by
  have hcm : ctorModeB (some rt) = true := by simp [ctorModeB, hrt]
  have h1 : (chr0 rt == '+') = true := by simp [hrt]
  have h2 : ((rt.drop 1).length == 0) = false := by simp [hrest]
  simp only [be_call_c_func, hcm, if_true, hsnd, hslot]
  simp only [be_set_ctor_ptr, h1, if_true, h2, Bool.false_eq_true, if_false,
    BValue.setmember, hmem, Option.isSome_some, if_true]

/-- Witness for C2 with tag `+_p` on an instance that owns a `_p` member. -/
theorem c2_witness :
    be_call_c_func env0 (fun _ => 0) (some "+_p") none [.inst "C" [("_p", .nil)], .comptr 5]
      = ⟨.ok .nil, .inst "C" [("_p", .comptr 5)], 0⟩ :=
  c2_adopt_pointer_stores_when_member_exists env0 (fun _ => 0) none "+_p"
    [.inst "C" [("_p", .nil)], .comptr 5] 5 "C" [("_p", .nil)] .nil
    (by decide) (by decide) rfl rfl rfl

/-! ## Claim C6 -/

/-- C6: round-trip — adopting a (32-bit) pointer P through the
constructor-pointer-store path of the dispatcher (tag `+_p`, second argument
the opaque pointer) stores P in the instance, and converting the updated
instance with the wildcard tag yields exactly the word P. -/
theorem c6_ctor_store_wildcard_roundtrip (env : Env) (f : List Int → Int)
    (at_ : Option String) (P : Int) (cname : String)
    (mems : List (String × BValue)) (old : BValue) (s1 : BValue)
    (hP1 : -2147483648 ≤ P) (hP2 : P < 2147483648)
    (hbytes : env.subclass cname "bytes" = false)
    (hmem : getmem mems "_p" = some old) :
    (be_call_c_func env f (some "+_p") at_ [.inst cname mems, .comptr P]).result
      = .ok .nil ∧
    be_convert_single_elt env s1
      ((be_call_c_func env f (some "+_p") at_ [.inst cname mems, .comptr P]).slot1)
      (some ".") none = .ok P := by
  have hr : be_call_c_func env f (some "+_p") at_ [.inst cname mems, .comptr P]
      = ⟨.ok .nil, .inst cname (setmem mems "_p" (.comptr P)), 0⟩ := by
    have hcm : ctorModeB (some "+_p") = true := by decide
    have h1 : (chr0 "+_p" == '+') = true := by decide
    have hd : ("+_p").drop 1 = "_p" := by decide
    have h2 : (("_p").length == 0) = false := by decide
    have hsnd : sndComptr [BValue.inst cname mems, BValue.comptr P] = some P := rfl
    have hslot : ([BValue.inst cname mems, BValue.comptr P]).headD BValue.nil
        = BValue.inst cname mems := rfl
    simp only [be_call_c_func, hcm, if_true, hsnd, hslot]
    simp only [be_set_ctor_ptr, h1, if_true, hd, h2, Bool.false_eq_true, if_false,
      BValue.setmember, hmem, Option.isSome_some, if_true]
  rw [hr]
  refine ⟨rfl, ?_⟩
  have hm : memberOrNil (setmem mems "_p" (.comptr P)) = .comptr P := by
    unfold memberOrNil
    rw [getmem_setmem (.comptr P) hmem]
  have ht : toInt32 P = P := toInt32_eq_self hP1 hP2
  simp +decide [be_convert_single_elt, convert_plain, check_simple, chr0,
    be_isderived, hbytes, hm, ht]

/-- Witness for C6 at P = 7. -/
theorem c6_witness :
    (be_call_c_func env0 (fun _ => 0) (some "+_p") none
      [.inst "C" [("_p", .nil)], .comptr 7]).result = .ok .nil ∧
    be_convert_single_elt env0 .nil
      ((be_call_c_func env0 (fun _ => 0) (some "+_p") none
        [.inst "C" [("_p", .nil)], .comptr 7]).slot1)
      (some ".") none = .ok 7 :=
  c6_ctor_store_wildcard_roundtrip env0 (fun _ => 0) none 7 "C" [("_p", .nil)]
    .nil .nil (by decide) (by decide) rfl rfl

/-! ## Claim C9 -/

/-- C9 counterexample: dispatching with return tag exactly `+` does *not*
store the native result (42) into a default member `_p`: the instance is
returned unchanged (its `_p` stays nil), the call yields nil after one native
invocation. -/
theorem c9_counterexample :
    be_call_c_func env0 (fun _ => 42) (some "+") none [.inst "C" [("_p", .nil)]]
      = ⟨.ok .nil, .inst "C" [("_p", BValue.nil)], 1⟩ := by
  rfl

/-- C9 amended: with return tag exactly `+` (empty remainder after the plus)
the constructor-pointer-store is a no-op — `be_set_ctor_ptr` returns before
storing because the remaining member name is empty, so there is no default
`_p` member: the native result pointer is discarded, stack slot 1 is left
unchanged and nil is returned after the single native invocation. -/
theorem c9_plus_alone_stores_nothing (env : Env) (f : List Int → Int)
    (at_ : Option String) (stack : List BValue) (ws : List Int)
    (hns : sndComptr stack = none)
    (hconv : be_check_arg_type env (stack.headD .nil) (stack.drop 1) at_ = .ok ws) :
    be_call_c_func env f (some "+") at_ stack = ⟨.ok .nil, stack.headD .nil, 1⟩ := by
  have hcm : ctorModeB (some "+") = true := by decide
  simp only [be_call_c_func, hcm, if_true, hns]
  simp only [be_call_main, hconv]
  simp +decide [convert_ret, be_set_ctor_ptr, chr0]

/-- Witness for C9 on an instance whose `_p` member would have been the
default target: it stays untouched. -/
theorem c9_witness :
    be_call_c_func env0 (fun _ => 7) (some "+") none [.inst "C" [("_p", .nil)]]
      = ⟨.ok .nil, .inst "C" [("_p", BValue.nil)], 1⟩ :=
  c9_plus_alone_stores_nothing env0 (fun _ => 7) none [.inst "C" [("_p", .nil)]]
    [] rfl rfl

/-! ## Claim C7 -/

theorem dropWhile_dot_of_no_dot {l : List Char} (h : '.' ∉ l) :
    l.dropWhile (· == '.') = l := by
  cases l with
  | nil => rfl
  | cons a t =>
    simp only [List.mem_cons, not_or] at h
    have ha : (a == '.') = false := by
      simp only [beq_eq_false_iff_ne]
      exact fun e => h.1 e.symm
    simp [List.dropWhile_cons, ha]

theorem takeWhile_ne_dot_of_no_dot {l : List Char} (h : '.' ∉ l) :
    l.takeWhile (· != '.') = l := by
  induction l with
  | nil => rfl
  | cons a t ih =>
    simp only [List.mem_cons, not_or] at h
    have ha : (a != '.') = true := by
      simp only [bne_iff_ne, ne_eq]
      exact fun e => h.1 e.symm
    simp [List.takeWhile_cons, ha, ih h.2]

theorem takeWhile_ne_dot_append (p s : List Char) (hp : '.' ∉ p) :
    (p ++ '.' :: s).takeWhile (· != '.') = p := by
  induction p with
  | nil => simp [List.takeWhile_cons]
  | cons a t ih =>
    simp only [List.mem_cons, not_or] at hp
    have ha : (a != '.') = true := by
      simp only [bne_iff_ne, ne_eq]
      exact fun e => hp.1 e.symm
    simp [List.takeWhile_cons, ha, ih hp.2]

theorem dropWhile_ne_dot_append (p s : List Char) (hp : '.' ∉ p) :
    (p ++ '.' :: s).dropWhile (· != '.') = '.' :: s := by
  induction p with
  | nil => simp [List.dropWhile_cons]
  | cons a t ih =>
    simp only [List.mem_cons, not_or] at hp
    have ha : (a != '.') = true := by
      simp only [bne_iff_ne, ne_eq]
      exact fun e => hp.1 e.symm
    simp [List.dropWhile_cons, ha, ih hp.2]

/-- `strtok` on a dotted name `p.s` (dot-free non-empty prefix) yields the
prefix and leaves the dotted tail. -/
theorem strtok1_dotted (p s : List Char) (hpne : p ≠ []) (hp : '.' ∉ p) :
    strtok1 (p ++ '.' :: s) = some (p, '.' :: s) := by
  obtain ⟨a, t, rfl⟩ : ∃ a t, p = a :: t := by
    cases p with
    | nil => exact absurd rfl hpne
    | cons a t => exact ⟨a, t, rfl⟩
  simp only [List.mem_cons, not_or] at hp
  have ha : (a == '.') = false := by
    simp only [beq_eq_false_iff_ne]
    exact fun e => hp.1 e.symm
  have ha' : (a != '.') = true := by
    simp only [bne_iff_ne, ne_eq]
    exact fun e => hp.1 e.symm
  unfold strtok1
  simp only [List.cons_append, List.dropWhile_cons, ha, Bool.false_eq_true, if_false,
    List.isEmpty_cons, List.takeWhile_cons, ha', if_true,
    takeWhile_ne_dot_append t s hp.2, dropWhile_ne_dot_append t s hp.2]

/-- `strtok` on the remaining `.s` (dot-free non-empty suffix) yields the
suffix. -/
theorem strtok1_dot_cons (s : List Char) (hsne : s ≠ []) (hs : '.' ∉ s) :
    strtok1 ('.' :: s) = some (s, s.dropWhile (· != '.')) := by
  unfold strtok1
  simp only [List.dropWhile_cons, beq_self_eq_true, if_true,
    dropWhile_dot_of_no_dot hs]
  have hne : s.isEmpty = false := by
    cases s with
    | nil => exact absurd rfl hsne
    | cons a t => rfl
  simp only [hne, Bool.false_eq_true, if_false, takeWhile_ne_dot_of_no_dot hs]

/-- C7 counterexample: the global `m` is a *module* whose member `x` is a
composite instance; the claim then requires FoundMethod(x, m), but the code
tests `be_isinstance(vm, -2)` — the container, not the member — and reports
Found(x). -/
theorem c7_counterexample :
    be_find_global_or_module_member env7 (some "m.x") = .found (.inst "C" []) ∧
    (BValue.inst "C" []).isinstance = true :=
  ⟨rfl, rfl⟩

/-- C7 amended: for a dotted name `module.member` whose prefix resolves to a
global carrying the member, the resolver reports FoundMethod(member, module)
exactly when the *global container* is a composite instance, and
Found(member) otherwise — the member's own kind is never consulted. -/
theorem c7_found_method_iff_container_instance (env : Env) (g m0 : BValue)
    (p s : List Char)
    (hpne : p ≠ []) (hp : '.' ∉ p) (hsne : s ≠ []) (hs : '.' ∉ s)
    (hg : env.globals (String.mk p) = some g)
    (hm : g.getmember (String.mk s) = some m0) :
    be_find_global_or_module_member env (some (String.mk (p ++ '.' :: s)))
      = if g.isinstance then .foundMethod m0 g else .found m0 := by
  unfold be_find_global_or_module_member
  simp only [strtok1_dotted p s hpne hp, strtok1_dot_cons s hsne hs, hg, hm]

/-- Witness for C7 on the module global `m` with instance member `x`: the
container is not an instance, so the result is Found(x). -/
theorem c7_witness :
    be_find_global_or_module_member env7 (some "m.x") = .found (.inst "C" []) :=
  c7_found_method_iff_container_instance env7 (.bmodule [("x", .inst "C" [])])
    (.inst "C" []) ['m'] ['x'] (by decide) (by decide) (by decide) (by decide)
    rfl rfl

/-! ## Claim C5 -/

/-- C5 counterexample: the descriptor `i` reaches its end while a second
dynamic argument remains, and no missing-arguments error is raised — the
extra argument is converted against the cleared (empty) token buffer, which
accepts its zero word, and the call succeeds. -/
theorem c5_counterexample :
    be_check_arg_type env0 .nil [.int 1, .int 0] (some "i") = .ok [1, 0] := by
  simp +decide [be_check_arg_type, checkArgsGo, be_convert_single_elt,
    convert_plain, check_simple, chr0, toInt32]

/-- C5 amended: the missing-arguments error fires in the opposite situation
to the claim — when the dynamic arguments are exhausted while descriptor
tokens remain; it then names the unconsumed remainder of the descriptor.
Shown here for a descriptor of `m` int tokens against `n < m` integer
arguments: the error names the `m - n` leftover tokens. -/
theorem c5_missing_arguments_names_remainder (env : Env) (s1 : BValue) (n m : Nat)
    (h : n < m) :
    be_check_arg_type env s1 (List.replicate n (BValue.int 1))
        (some (String.mk (List.replicate m 'i')))
      = .error (.missing_arguments (String.mk (List.replicate (m - n) 'i'))) := by
  have hw : be_check_arg_type env s1 (List.replicate n (BValue.int 1))
        (some (String.mk (List.replicate m 'i')))
      = checkArgsGo env s1 true (List.replicate n (BValue.int 1))
          (some (List.replicate m 'i')) := rfl
  rw [hw]
  clear hw
  induction n generalizing m with
  | zero =>
    obtain ⟨m', rfl⟩ : ∃ m', m = m' + 1 := ⟨m - 1, by omega⟩
    simp [checkArgsGo, List.replicate_succ]
  | succ n ih =>
    obtain ⟨m', rfl⟩ : ∃ m', m = m' + 1 := ⟨m - 1, by omega⟩
    simp only [List.replicate_succ, checkArgsGo]
    rw [if_neg (by decide), if_pos (by decide)]
    simp only [if_true]
    rw [convert_int_i, show toInt32 1 = 1 from by decide]
    rw [ih m' (by omega)]
    simp [Nat.succ_sub_succ]

/-- Witness for C5: descriptor `iii` against one integer argument raises the
missing-arguments error naming the remainder `ii`. -/
theorem c5_witness :
    be_check_arg_type env0 .nil (List.replicate 1 (BValue.int 1))
        (some (String.mk (List.replicate 3 'i')))
      = .error (.missing_arguments (String.mk (List.replicate 2 'i'))) :=
  c5_missing_arguments_names_remainder env0 .nil 1 3 (by decide)

/-! ## Claim C10 -/

theorem getmem_sizeOf {l : List (String × BValue)} {n : String} {m : BValue}
    (h : getmem l n = some m) : sizeOf m < sizeOf l := by
  induction l with
  | nil => simp [getmem] at h
  | cons hd tl ih =>
    obtain ⟨k, v'⟩ := hd
    simp only [getmem] at h
    by_cases hk : (k == n) = true
    · rw [if_pos hk] at h
      cases h
      simp only [List.cons.sizeOf_spec, Prod.mk.sizeOf_spec]
      omega
    · rw [if_neg hk] at h
      have := ih h
      simp only [List.cons.sizeOf_spec, Prod.mk.sizeOf_spec]
      omega

theorem memberOrNil_sizeOf (mems : List (String × BValue)) :
    sizeOf (memberOrNil mems) ≤ sizeOf mems := by
  have hnil : (1 : Nat) ≤ sizeOf mems := by
    cases mems with
    | nil => simp
    | cons hd tl => simp only [List.cons.sizeOf_spec]; omega
  unfold memberOrNil
  cases h1 : getmem mems "_p" with
  | some m => exact le_of_lt (getmem_sizeOf h1)
  | none =>
    cases h2 : getmem mems ".p" with
    | some m => exact le_of_lt (getmem_sizeOf h2)
    | none => simpa using hnil

theorem bvalue_sizeOf_pos (v : BValue) : 0 < sizeOf v := by
  cases v <;> simp_arith

/-- `convert_plain` never raises the missing-arguments error (its raise sites
are the type/class/value mismatch errors only); by induction on the size of
the value through the pointer-member recursion. -/
theorem convert_plain_ne_missing (k : Nat) :
    ∀ (env : Env) (s1 v : BValue) (t r : String),
      sizeOf v ≤ k → convert_plain env s1 v t ≠ .error (.missing_arguments r) := by
  induction k with
  | zero =>
    intro env s1 v t r hsz
    have := bvalue_sizeOf_pos v
    omega
  | succ k ih =>
    intro env s1 v t r hsz h
    cases v with
    | nil => simp only [convert_plain, check_simple] at h; split at h <;> simp_all
    | int i => simp only [convert_plain, check_simple] at h; split at h <;> simp_all
    | bool b =>
      simp only [convert_plain, check_simple] at h
      split at h <;> (split at h <;> simp_all)
    | str s => simp only [convert_plain, check_simple] at h; split at h <;> simp_all
    | comptr p => simp only [convert_plain, check_simple] at h; split at h <;> simp_all
    | closure cid => simp [convert_plain] at h
    | bmodule mems => simp [convert_plain] at h
    | cls cname => simp [convert_plain] at h
    | inst cname mems =>
      simp only [convert_plain] at h
      split at h
      · simp at h
      · split at h
        · rename_i e heq
          simp only [Except.error.injEq] at h
          subst h
          have hb : sizeOf (memberOrNil mems) ≤ k := by
            have h1 := memberOrNil_sizeOf mems
            simp only [BValue.inst.sizeOf_spec] at hsz
            omega
          exact ih env s1 (memberOrNil mems) "." r hb heq
        · rename_i w0 heq
          split at h
          · split at h
            · simp at h
            · split at h <;> simp_all
            · split at h <;> simp_all
          · split at h <;> simp_all

/-- The callback block never raises the missing-arguments error either. -/
theorem convert_cb_ne_missing (env : Env) (s1 v : BValue) (at_ : String)
    (g : Option String) (r : String) :
    convert_cb env s1 v at_ g ≠ .error (.missing_arguments r) := by
  unfold convert_cb
  split
  · split <;> simp
  · simp

/-- `be_convert_single_elt` never raises the missing-arguments error. -/
theorem convert_ne_missing (env : Env) (s1 v : BValue) (t g : Option String)
    (r : String) :
    be_convert_single_elt env s1 v t g ≠ .error (.missing_arguments r) := by
  simp only [be_convert_single_elt]
  split
  · exact convert_cb_ne_missing env s1 v _ g r
  · exact convert_plain_ne_missing (sizeOf v) env s1 v _ r le_rfl

/-- Once the descriptor cursor has been invalidated (`arg_type = NULL`), the
remaining conversion loop can never raise the missing-arguments error. -/
theorem checkArgsGo_none_ne_missing (env : Env) (s1 : BValue) (check0 : Bool)
    (vs : List BValue) (r : String) :
    checkArgsGo env s1 check0 vs none ≠ .error (.missing_arguments r) := by
  induction vs with
  | nil => simp [checkArgsGo]
  | cons v vs ih =>
    intro h
    simp only [checkArgsGo] at h
    split at h
    · rename_i e heq
      simp only [Except.error.injEq] at h
      subst h
      exact convert_ne_missing env s1 v _ _ r heq
    · rename_i w heq
      split at h
      · rename_i e2 heq2
        simp only [Except.error.injEq] at h
        subst h
        exact ih heq2
      · simp at h

theorem scanLen_le (cs : List Char) (n : Nat) : scanLen cs n ≤ n := by
  induction cs generalizing n with
  | nil => simp [scanLen]
  | cons a t ih =>
    cases n with
    | zero => simp [scanLen]
    | succ k =>
      simp only [scanLen]
      split
      · omega
      · have := ih k
        omega

/-- When the scanned text holds no stop character and fits the buffer, the
scan consumes it whole. -/
theorem scanLen_all (cs : List Char) (n : Nat) (h1 : ')' ∉ cs) (h2 : '^' ∉ cs)
    (hlen : cs.length ≤ n) : scanLen cs n = cs.length := by
  induction cs generalizing n with
  | nil => simp [scanLen]
  | cons a t ih =>
    cases n with
    | zero => simp at hlen
    | succ k =>
      simp only [List.mem_cons, not_or] at h1 h2
      have ha : (a == ')' || a == '^') = false := by
        simp only [Bool.or_eq_false_iff, beq_eq_false_iff_ne]
        exact ⟨fun e => h1.1 e.symm, fun e => h2.1 e.symm⟩
      simp only [scanLen, ha, Bool.false_eq_true, if_false, List.length_cons]
      simp only [List.length_cons] at hlen
      rw [ih k h1.2 h2.2 (by omega)]

/-- C10 counterexample, refuting both consequents of the claim.
First, after the short unterminated token `(foo` the next argument is *not*
converted with the wildcard tag: it is converted against the cleared empty
token buffer, which rejects the non-zero integer 5 with a type error (a
wildcard would have accepted it).  Second, for an unterminated token longer
than the 31-byte buffer (here 33 `a`s) the cursor resumes mid-name and the
missing-arguments check *does* fire, naming the leftover text. -/
theorem c10_counterexample :
    be_check_arg_type env0 .nil [.nil, .int 5] (some "(foo")
        = .error (.unexpected_arg_type 'i' "") ∧
    be_check_arg_type env0 .nil [.nil] (some "(aaaaaaaaaaaaaaaaaaaaaaaaaaaaaaaaa")
        = .error (.missing_arguments "a") := by
  constructor <;>
    simp +decide [be_check_arg_type, checkArgsGo, be_convert_single_elt,
      convert_plain, check_simple, chr0, env0, toInt32, scanLen]

/-- C10 amended: when a `(name` token is unterminated and the remaining name
fits the scan cap of the 32-byte token buffer, the parser treats the whole
descriptor as exhausted: the current argument is converted against the
truncated name, every later argument is converted with the invalidated
cursor — i.e. against the cleared *empty* tag, not the wildcard — and the
missing-arguments error can no longer fire for that call; independently, any
scanned token text is capped at 31 characters (30 name characters after a
caret).  (For an unterminated name longer than the cap the cursor instead
resumes mid-name and the missing-arguments check can still fire.) -/
theorem c10_unterminated_short_token_exhausts_descriptor (env : Env)
    (s1 v : BValue) (vs : List BValue) (name : List Char)
    (h1 : ')' ∉ name) (h2 : '^' ∉ name) (h3 : name.length ≤ 31) :
    be_check_arg_type env s1 (v :: vs) (some (String.mk ('(' :: name)))
      = (match be_convert_single_elt env s1 v (some (String.mk name))
            (some "_lvgl.gen_cb") with
        | .error e => .error e
        | .ok w =>
          match checkArgsGo env s1 true vs none with
          | .error e => .error e
          | .ok ws => .ok (w :: ws)) ∧
    (∀ r : String, checkArgsGo env s1 true vs none
        ≠ .error (.missing_arguments r)) ∧
    (∀ cs : List Char, (cs.take (scanLen cs 31)).length ≤ 31 ∧
        ('^' :: cs.take (scanLen cs 30)).length ≤ 31) := by
  refine ⟨?_, fun r => checkArgsGo_none_ne_missing env s1 true vs r, fun cs => ⟨?_, ?_⟩⟩
  · have hw : be_check_arg_type env s1 (v :: vs) (some (String.mk ('(' :: name)))
        = checkArgsGo env s1 true (v :: vs) (some ('(' :: name)) := rfl
    rw [hw]
    simp only [checkArgsGo]
    rw [if_neg (by decide), if_neg (by decide), if_pos (by decide)]
    have hp : (('(' : Char) == '^') = false := by decide
    have hs : scanLen name 31 = name.length := scanLen_all name 31 h1 h2 h3
    have hget : (name.get? name.length).isNone = true := by
      simp [List.get?_eq_none.mpr (le_refl name.length)]
    simp only [hp, Bool.false_eq_true, if_false, Nat.sub_zero, hs, hget, if_true,
      List.take_length, eq_self_iff_true]
  · have := scanLen_le cs 31
    have := List.length_take_le (scanLen cs 31) cs
    have h4 : (cs.take (scanLen cs 31)).length ≤ scanLen cs 31 := List.length_take_le _ _
    omega
  · have := scanLen_le cs 30
    have h4 : (cs.take (scanLen cs 30)).length ≤ scanLen cs 30 := List.length_take_le _ _
    simp only [List.length_cons]
    omega

/-- Witness for C10 at the descriptor `(foo` with one nil argument. -/
theorem c10_witness :
    be_check_arg_type env0 .nil [BValue.nil] (some (String.mk ('(' :: "foo".data)))
      = (match be_convert_single_elt env0 .nil .nil (some (String.mk "foo".data))
            (some "_lvgl.gen_cb") with
        | .error e => .error e
        | .ok w =>
          match checkArgsGo env0 .nil true [] none with
          | .error e => .error e
          | .ok ws => .ok (w :: ws)) :=
  (c10_unterminated_short_token_exhausts_descriptor env0 .nil .nil [] "foo".data
    (by decide) (by decide) (by decide)).1

end BeClassWrapper
